import Mathlib

/-!
# http-proxy-go: dispatch, tunnelling and rewriting

A shallow embedding of `main.go`.  The three handlers and `transfer` are
translated as functions that return the sequence of effects (`Event`) they
perform on their collaborators, given the answers those collaborators give
(the result of `net.Dial`, whether the response writer is an `http.Hijacker`
and what `Hijack` returns, what each `Read` / `Write` / `Close` returns).

Standard-library behaviour the handlers rely on (`http.Error`, `io.Copy`,
the first-`WriteHeader`-wins rule of `http.ResponseWriter`) is modelled after
the Go standard library and marked as such.
-/

namespace HttpProxy

abbrev Byte := UInt8

/-! ## Constants of `net/http` and `io` -/

/-- Constant `http.MethodConnect`. -/
def MethodConnect : String := "CONNECT"

/-- Constant `http.StatusOK`. -/
def StatusOK : Nat := 200

/-- Constant `http.StatusInternalServerError`. -/
def StatusInternalServerError : Nat := 500

/-- Constant `http.StatusServiceUnavailable`. -/
def StatusServiceUnavailable : Nat := 503

/-- Text of `io.ErrShortWrite`. -/
def ErrShortWrite : String := "short write"

/-- Text of the unexported `io.errInvalidWrite`. -/
def errInvalidWrite : String := "invalid write result"

/-! ## Data model -/

/-- Fields of `url.URL`. -/
structure URL where
  Scheme : String
  Opaque : String
  User : Option (String × Option String)
  Host : String
  Path : String
  RawPath : String
  OmitHost : Bool
  ForceQuery : Bool
  RawQuery : String
  Fragment : String
  RawFragment : String
  deriving DecidableEq

/-- Fields of `http.Request` that a handler or a director can observe. -/
structure Request where
  Method : String
  URL : URL
  Proto : String
  Header : List (String × List String)
  Body : List Byte
  ContentLength : Int
  Host : String
  RequestURI : String
  RemoteAddr : String
  deriving DecidableEq

/-- How the read side of a connection ends: `io.EOF` or another error. -/
inductive ReadEnd where
  | eof
  | error (msg : String)
  deriving DecidableEq

/-- What one `Write` call returns: `(n int, err error)`. -/
structure WriteResult where
  n : Int
  err : Option String
  deriving DecidableEq

/-- Model of a `net.Conn` as seen by one relay task.
`chunks` are the byte slices delivered by the successive `Read` calls that
return a nil error, `last` and `fin` the data and the error of the `Read`
call that ends the stream; `write k p` is what the `k`-th `Write` call
(counting from 0) returns when given `p`; `closeErr` is what `Close`
returns. -/
structure Conn where
  id : Nat
  chunks : List (List Byte)
  last : List Byte
  fin : ReadEnd
  write : Nat → List Byte → WriteResult
  closeErr : Option String

/-- Model of an `http.ResponseWriter`: `hijacker` is `none` when the type
assertion `w.(http.Hijacker)` fails, otherwise the result that `Hijack()`
returns (the connection, or the error text). -/
structure ResponseWriter where
  hijacker : Option (Except String Conn)

/-- Model of the network: the result of `net.Dial(network, address)`. -/
structure Env where
  dial : String → String → Except String Conn

/-- The one field of `httputil.ReverseProxy` that `handleHTTP` sets. -/
structure ReverseProxy where
  Director : Request → Request

/-- Effects performed by the handlers, in program order. -/
inductive Event where
  | dial (network address : String) (result : Except String Conn)
  | headerDel (key : String)
  | headerSet (key value : String)
  | writeHeader (statusCode : Nat)
  | write (body : String)
  | hijack (result : Except String Conn)
  | go_transfer (destination source : Conn)
  | serveHTTP (rp : ReverseProxy) (w : ResponseWriter) (r : Request)
  | connRead (c : Nat) (data : List Byte) (err : Option ReadEnd)
  | connWrite (c : Nat) (p : List Byte) (n : Int) (err : Option String)
  | connClose (c : Nat) (err : Option String)

/-! ## Standard-library behaviour -/

/-- Library function `http.Error(w, error, code)`: it fixes the content
headers, calls `w.WriteHeader(code)` and prints the error text followed by a
newline to `w`. -/
def httpError (error : String) (code : Nat) : List Event :=
  [Event.headerDel "Content-Length",
   Event.headerSet "Content-Type" "text/plain; charset=utf-8",
   Event.headerSet "X-Content-Type-Options" "nosniff",
   Event.writeHeader code,
   Event.write (error ++ "\n")]

/-- Result of `io.Copy`: the effects it performed, and its two return
values. -/
structure CopyResult where
  events : List Event
  written : Int
  err : Option String

/-- The `if nr > 0 { ... }` block of the loop of `io.copyBuffer`, entered
with the `nr = data.length` bytes just read: the effects, the new value of
`written`, and the error the loop breaks with (`none`: no break). -/
def copyWrite (dst : Conn) (k : Nat) (written : Int) (data : List Byte) :
    List Event × Int × Option String :=
  if 0 < data.length then
    let res := dst.write k data
    let invalid : Bool := decide (res.n < 0) || decide ((data.length : Int) < res.n)
    let nw : Int := if invalid then 0 else res.n
    let ew : Option String :=
      if invalid && res.err.isNone then some errInvalidWrite else res.err
    let ev := Event.connWrite dst.id data res.n res.err
    match ew with
    | some e => ([ev], written + nw, some e)
    | none =>
      if (data.length : Int) ≠ nw then ([ev], written + nw, some ErrShortWrite)
      else ([ev], written + nw, none)
  else ([], written, none)

/-- The loop of `io.copyBuffer` (the generic path of `io.Copy`): read a
chunk, write it, stop at the first write that fails or is short and at the
read that returns an error.  `k` counts the `Write` calls made so far, the
list is what the remaining error-free `Read` calls deliver. -/
def copyLoop (dst src : Conn) : Nat → Int → List (List Byte) → CopyResult
  | k, written, [] =>
    match copyWrite dst k written src.last with
    | (evs, written1, some e) =>
      ⟨Event.connRead src.id src.last (some src.fin) :: evs, written1, some e⟩
    | (evs, written1, none) =>
      ⟨Event.connRead src.id src.last (some src.fin) :: evs, written1,
        match src.fin with
        | ReadEnd.eof => none
        | ReadEnd.error m => some m⟩
  | k, written, c :: rest =>
    match copyWrite dst k written c with
    | (evs, written1, some e) =>
      ⟨Event.connRead src.id c none :: evs, written1, some e⟩
    | (evs, written1, none) =>
      let r := copyLoop dst src (if 0 < c.length then k + 1 else k) written1 rest
      ⟨Event.connRead src.id c none :: (evs ++ r.events), r.written, r.err⟩

/-- Library function `io.Copy(dst, src)`, modelled by its generic loop; the
`WriterTo` / `ReaderFrom` shortcuts that connection types may offer move the
same bytes in the same order. -/
def ioCopy (dst src : Conn) : CopyResult :=
  copyLoop dst src 0 0 src.chunks

/-! ## The program -/

/-- Function `transfer` of `main.go`: the copy, then the deferred calls in
reverse order of their `defer` statements (`source.Close()` first, then
`destination.Close()`); the results of all three are dropped. -/
def transfer (destination source : Conn) : List Event :=
  (ioCopy destination source).events ++
    [Event.connClose source.id source.closeErr,
     Event.connClose destination.id destination.closeErr]

/-- Function `handleTunneling` of `main.go`. -/
def handleTunneling (env : Env) (w : ResponseWriter) (r : Request) : List Event :=
  match env.dial "tcp" r.Host with
  | Except.error err =>
    Event.dial "tcp" r.Host (Except.error err) ::
      httpError err StatusServiceUnavailable
  | Except.ok destConn =>
    Event.dial "tcp" r.Host (Except.ok destConn) ::
    Event.writeHeader StatusOK ::
    match w.hijacker with
    | none => httpError "Hijacking not supported" StatusInternalServerError
    | some (Except.error err) =>
      Event.hijack (Except.error err) :: httpError err StatusServiceUnavailable
    | some (Except.ok clientConn) =>
      [Event.hijack (Except.ok clientConn),
       Event.go_transfer destConn clientConn,
       Event.go_transfer clientConn destConn]

/-- The `Director` closure built in `handleHTTP`, with the captured
original request `r`. -/
def handleHTTP.Director (r : Request) (req : Request) : Request :=
  { req with URL := { req.URL with Scheme := "http", Host := r.Host } }

/-- Function `handleHTTP` of `main.go`. -/
def handleHTTP (w : ResponseWriter) (r : Request) : List Event :=
  let rp : ReverseProxy := { Director := handleHTTP.Director r }
  [Event.serveHTTP rp w r]

/-- Function `proxyHandler` of `main.go`, with the two handlers it calls as
parameters. -/
def proxyHandlerWith {α : Type} (handleTunneling handleHTTP : ResponseWriter → Request → α)
    (w : ResponseWriter) (r : Request) : α :=
  if r.Method = MethodConnect then handleTunneling w r else handleHTTP w r

/-- Function `proxyHandler` of `main.go`. -/
def proxyHandler (env : Env) (w : ResponseWriter) (r : Request) : List Event :=
  proxyHandlerWith (handleTunneling env) handleHTTP w r

/-! ## Observations on effect sequences -/

/-- Handler invocations, as recorded by the dispatcher. -/
inductive Call where
  | handleTunneling (w : ResponseWriter) (r : Request)
  | handleHTTP (w : ResponseWriter) (r : Request)

/-- Status codes passed to `WriteHeader`, in order. -/
def statusWrites : List Event → List Nat
  | [] => []
  | Event.writeHeader c :: es => c :: statusWrites es
  | _ :: es => statusWrites es

/-- Texts passed to `Write` on the response writer, in order. -/
def bodyWrites : List Event → List String
  | [] => []
  | Event.write b :: es => b :: bodyWrites es
  | _ :: es => bodyWrites es

/-- Status line the client receives, after `http.ResponseWriter`: the first
`WriteHeader` fixes it (later calls are superfluous and ignored), and a
`Write` that comes before any `WriteHeader` implies `StatusOK`. -/
def effectiveStatus : List Event → Option Nat
  | [] => none
  | Event.writeHeader c :: _ => some c
  | Event.write _ :: _ => some StatusOK
  | _ :: es => effectiveStatus es

/-- Whether an effect is an operation on the response writer `w`. -/
def isWriterOp : Event → Bool
  | Event.headerDel _ => true
  | Event.headerSet _ _ => true
  | Event.writeHeader _ => true
  | Event.write _ => true
  | Event.hijack _ => true
  | _ => false

/-- Number of `Hijack()` calls. -/
def hijackCalls : List Event → Nat
  | [] => 0
  | Event.hijack _ :: es => hijackCalls es + 1
  | _ :: es => hijackCalls es

/-- Relay tasks launched, as `(destination, source)` argument pairs of
`transfer`, in launch order. -/
def goTasks : List Event → List (Conn × Conn)
  | [] => []
  | Event.go_transfer d s :: es => (d, s) :: goTasks es
  | _ :: es => goTasks es

/-- Identifiers of the connections opened by a successful dial. -/
def opened : List Event → List Nat
  | [] => []
  | Event.dial _ _ (Except.ok c) :: es => c.id :: opened es
  | _ :: es => opened es

/-- Identifiers of the connections on which `Close` is called, in order. -/
def closes : List Event → List Nat
  | [] => []
  | Event.connClose c _ :: es => c :: closes es
  | _ :: es => closes es

/-- Identifiers of the connections on which `Read` is called, in order. -/
def readConns : List Event → List Nat
  | [] => []
  | Event.connRead c _ _ :: es => c :: readConns es
  | _ :: es => readConns es

/-- Identifiers of the connections on which `Write` is called, in order. -/
def writeConns : List Event → List Nat
  | [] => []
  | Event.connWrite c _ _ _ :: es => c :: writeConns es
  | _ :: es => writeConns es

/-- Bytes delivered by the `Read` calls on connection `c`, concatenated in
call order. -/
def bytesRead (c : Nat) : List Event → List Byte
  | [] => []
  | Event.connRead c1 data _ :: es =>
    if c1 = c then data ++ bytesRead c es else bytesRead c es
  | _ :: es => bytesRead c es

/-- Bytes accepted by the `Write` calls on connection `c`, concatenated in
call order: a call that returns `n` accepted the first `n` bytes of its
argument. -/
def bytesWritten (c : Nat) : List Event → List Byte
  | [] => []
  | Event.connWrite c1 p n _ :: es =>
    if c1 = c then p.take n.toNat ++ bytesWritten c es else bytesWritten c es
  | _ :: es => bytesWritten c es

/-- Whether every `Write` on the connection accepts its whole argument and
returns a nil error. -/
def AcceptsEveryWrite (dst : Conn) : Prop :=
  ∀ k p, dst.write k p = ⟨(p.length : Int), none⟩

/-- Effects of a tunnel request carried to its end: those of
`handleTunneling`, followed by those of every relay task it launched, each
run to completion. -/
def tunnelRun (env : Env) (w : ResponseWriter) (r : Request) : List Event :=
  handleTunneling env w r ++
    ((goTasks (handleTunneling env w r)).map (fun t => transfer t.1 t.2)).flatten

/-! ## Sample inputs -/

/-- A request with the given method and host, everything else empty. -/
def sampleRequest (method host : String) : Request :=
  { Method := method
    URL := { Scheme := "", Opaque := "", User := none, Host := "", Path := "",
             RawPath := "", OmitHost := false, ForceQuery := false, RawQuery := "",
             Fragment := "", RawFragment := "" }
    Proto := "HTTP/1.1", Header := [], Body := [], ContentLength := 0,
    Host := host, RequestURI := host, RemoteAddr := "" }

/-- A connection that delivers the given chunks and then `io.EOF`, and
accepts every write. -/
def sampleConn (id : Nat) (chunks : List (List Byte)) : Conn :=
  { id := id, chunks := chunks, last := [], fin := ReadEnd.eof,
    write := fun _ p => ⟨(p.length : Int), none⟩, closeErr := none }

/-- A network where every dial fails with the given text. -/
def envDialFails (err : String) : Env := { dial := fun _ _ => Except.error err }

/-- A network where every dial returns the given connection. -/
def envDialOk (d : Conn) : Env := { dial := fun _ _ => Except.ok d }

/-! ## Helper lemmas -/

theorem handleTunneling_ne_handleHTTP (env : Env) (w : ResponseWriter) (r : Request) :
    handleTunneling env w r ≠ handleHTTP w r := by
  unfold handleTunneling handleHTTP
  cases env.dial "tcp" r.Host <;> simp

theorem handleTunneling_dial_error (env : Env) (w : ResponseWriter) (r : Request)
    (err : String) (h : env.dial "tcp" r.Host = Except.error err) :
    handleTunneling env w r =
      Event.dial "tcp" r.Host (Except.error err) :: httpError err StatusServiceUnavailable := by
  simp only [handleTunneling, h]

theorem handleTunneling_not_hijacker (env : Env) (w : ResponseWriter) (r : Request)
    (d : Conn) (h : env.dial "tcp" r.Host = Except.ok d) (hw : w.hijacker = none) :
    handleTunneling env w r =
      Event.dial "tcp" r.Host (Except.ok d) :: Event.writeHeader StatusOK ::
        httpError "Hijacking not supported" StatusInternalServerError := by
  simp only [handleTunneling, h, hw]

theorem handleTunneling_hijack_error (env : Env) (w : ResponseWriter) (r : Request)
    (d : Conn) (err : String) (h : env.dial "tcp" r.Host = Except.ok d)
    (hw : w.hijacker = some (Except.error err)) :
    handleTunneling env w r =
      Event.dial "tcp" r.Host (Except.ok d) :: Event.writeHeader StatusOK ::
        Event.hijack (Except.error err) :: httpError err StatusServiceUnavailable := by
  simp only [handleTunneling, h, hw]

theorem handleTunneling_established (env : Env) (w : ResponseWriter) (r : Request)
    (d c : Conn) (h : env.dial "tcp" r.Host = Except.ok d)
    (hw : w.hijacker = some (Except.ok c)) :
    handleTunneling env w r =
      [Event.dial "tcp" r.Host (Except.ok d), Event.writeHeader StatusOK,
       Event.hijack (Except.ok c), Event.go_transfer d c, Event.go_transfer c d] := by
  simp only [handleTunneling, h, hw]

theorem copyWrite_shape (dst : Conn) (k : Nat) (written : Int) (data : List Byte) :
    ((copyWrite dst k written data).1 = [] ∧ data = [] ∧
      (copyWrite dst k written data).2.2 = none) ∨
    ((copyWrite dst k written data).1 =
        [Event.connWrite dst.id data (dst.write k data).n (dst.write k data).err] ∧
      ((copyWrite dst k written data).2.2 = none →
        (dst.write k data).n = (data.length : Int))) := by
  unfold copyWrite
  by_cases h : 0 < data.length
  · right
    simp only [h, if_true]
    generalize dst.write k data = res
    obtain ⟨n, err⟩ := res
    have hne : data ≠ [] := fun e => by simp [e] at h
    by_cases h1 : n < 0 <;> by_cases h2 : (data.length : Int) < n <;> cases err <;>
      by_cases h3 : (data.length : Int) = n <;> simp [h1, h2, h3, hne]
  · left
    simp only [h, if_false]
    refine ⟨trivial, ?_, trivial⟩
    exact List.length_eq_zero.mp (by omega)

theorem copyWrite_accepts (dst : Conn) (h : AcceptsEveryWrite dst) (k : Nat)
    (written : Int) (data : List Byte) : (copyWrite dst k written data).2.2 = none := by
  unfold copyWrite
  by_cases hd : 0 < data.length
  · have hn : ¬ ((data.length : Int) < 0) := by omega
    simp [hd, h k data, hn]
  · simp [hd]

theorem closes_append (a b : List Event) : closes (a ++ b) = closes a ++ closes b := by
  induction a with
  | nil => rfl
  | cons e es ih => cases e <;> simp [closes, ih]

theorem readConns_append (a b : List Event) :
    readConns (a ++ b) = readConns a ++ readConns b := by
  induction a with
  | nil => rfl
  | cons e es ih => cases e <;> simp [readConns, ih]

theorem writeConns_append (a b : List Event) :
    writeConns (a ++ b) = writeConns a ++ writeConns b := by
  induction a with
  | nil => rfl
  | cons e es ih => cases e <;> simp [writeConns, ih]

theorem bytesRead_append (c : Nat) (a b : List Event) :
    bytesRead c (a ++ b) = bytesRead c a ++ bytesRead c b := by
  induction a with
  | nil => rfl
  | cons e es ih =>
    cases e
    case connRead c1 data err => by_cases hc : c1 = c <;> simp [bytesRead, hc, ih]
    all_goals simp [bytesRead, ih]

theorem bytesWritten_append (c : Nat) (a b : List Event) :
    bytesWritten c (a ++ b) = bytesWritten c a ++ bytesWritten c b := by
  induction a with
  | nil => rfl
  | cons e es ih =>
    cases e
    case connWrite c1 p n err => by_cases hc : c1 = c <;> simp [bytesWritten, hc, ih]
    all_goals simp [bytesWritten, ih]

theorem copyWrite_obs (dst : Conn) (k : Nat) (written : Int) (data : List Byte) :
    closes (copyWrite dst k written data).1 = [] ∧
    readConns (copyWrite dst k written data).1 = [] ∧
    (∀ x ∈ writeConns (copyWrite dst k written data).1, x = dst.id) ∧
    (∀ c, bytesRead c (copyWrite dst k written data).1 = []) ∧
    bytesWritten dst.id (copyWrite dst k written data).1 <+: data ∧
    ((copyWrite dst k written data).2.2 = none →
      bytesWritten dst.id (copyWrite dst k written data).1 = data) := by
  rcases copyWrite_shape dst k written data with ⟨h1, h2, _⟩ | ⟨h1, h2⟩
  · rw [h1, h2]
    simp [closes, readConns, writeConns, bytesRead, bytesWritten]
  · rw [h1]
    refine ⟨rfl, rfl, ?_, fun _ => rfl, ?_, ?_⟩
    · simp [writeConns]
    · simp only [bytesWritten, if_true, List.append_nil]
      exact List.take_prefix _ _
    · intro hn
      simp only [bytesWritten, if_true, List.append_nil, h2 hn, Int.toNat_ofNat, List.take_length]

theorem copyLoop_nil_events (dst src : Conn) (k : Nat) (written : Int) :
    (copyLoop dst src k written []).events =
      Event.connRead src.id src.last (some src.fin) :: (copyWrite dst k written src.last).1 := by
  rw [copyLoop]
  split <;> rename_i h <;> simp [h]

theorem copyLoop_cons_events_break (dst src : Conn) (k : Nat) (written : Int)
    (c : List Byte) (rest : List (List Byte))
    (hb : (copyWrite dst k written c).2.2 ≠ none) :
    (copyLoop dst src k written (c :: rest)).events =
      Event.connRead src.id c none :: (copyWrite dst k written c).1 := by
  rw [copyLoop]
  split <;> rename_i h <;> simp [h] at hb ⊢

theorem copyLoop_cons_events_cont (dst src : Conn) (k : Nat) (written : Int)
    (c : List Byte) (rest : List (List Byte))
    (hb : (copyWrite dst k written c).2.2 = none) :
    (copyLoop dst src k written (c :: rest)).events =
      Event.connRead src.id c none :: ((copyWrite dst k written c).1 ++
        (copyLoop dst src (if 0 < c.length then k + 1 else k)
          (copyWrite dst k written c).2.1 rest).events) := by
  rw [copyLoop]
  split <;> rename_i h <;> simp [h] at hb ⊢

theorem copyLoop_obs (dst src : Conn) (chunks : List (List Byte)) :
    ∀ (k : Nat) (written : Int),
      closes (copyLoop dst src k written chunks).events = [] ∧
      (∀ x ∈ readConns (copyLoop dst src k written chunks).events, x = src.id) ∧
      (∀ x ∈ writeConns (copyLoop dst src k written chunks).events, x = dst.id) ∧
      bytesWritten dst.id (copyLoop dst src k written chunks).events
        <+: bytesRead src.id (copyLoop dst src k written chunks).events ∧
      bytesRead src.id (copyLoop dst src k written chunks).events
        <+: chunks.flatten ++ src.last := by
  induction chunks with
  | nil =>
    intro k written
    obtain ⟨hc, hr, hw, hbr, hpre, _⟩ := copyWrite_obs dst k written src.last
    rw [copyLoop_nil_events]
    refine ⟨?_, ?_, ?_, ?_, ?_⟩
    · simpa [closes] using hc
    · simp [readConns, hr]
    · simpa [writeConns] using hw
    · simpa [bytesWritten, bytesRead, hbr] using hpre
    · simp [bytesRead, hbr]
  | cons c rest ih =>
    intro k written
    obtain ⟨hc, hr, hw, hbr, hpre, hfull⟩ := copyWrite_obs dst k written c
    by_cases hb : (copyWrite dst k written c).2.2 = none
    · obtain ⟨ic, ir, iw, ipre, isrc⟩ :=
        ih (if 0 < c.length then k + 1 else k) (copyWrite dst k written c).2.1
      rw [copyLoop_cons_events_cont dst src k written c rest hb]
      refine ⟨?_, ?_, ?_, ?_, ?_⟩
      · simp [closes, closes_append, hc, ic]
      · simpa [readConns, readConns_append, hr] using ir
      · intro x hx
        simp only [writeConns, writeConns_append, List.mem_append] at hx
        rcases hx with hx | hx
        · exact hw x hx
        · exact iw x hx
      · simp only [bytesWritten, bytesRead, bytesWritten_append, bytesRead_append, hbr,
          hfull hb, if_true, List.nil_append]
        exact (List.prefix_append_right_inj c).mpr ipre
      · simp only [bytesRead, bytesRead_append, hbr, if_true, List.nil_append,
          List.flatten_cons, List.append_assoc]
        exact (List.prefix_append_right_inj c).mpr isrc
    · rw [copyLoop_cons_events_break dst src k written c rest hb]
      refine ⟨?_, ?_, ?_, ?_, ?_⟩
      · simpa [closes] using hc
      · simp [readConns, hr]
      · simpa [writeConns] using hw
      · simpa [bytesWritten, bytesRead, hbr] using hpre
      · simp only [bytesRead, hbr, if_true, List.append_nil, List.flatten_cons,
          List.append_assoc]
        exact List.prefix_append _ _

theorem copyLoop_accepts (dst src : Conn) (h : AcceptsEveryWrite dst)
    (chunks : List (List Byte)) :
    ∀ (k : Nat) (written : Int),
      bytesWritten dst.id (copyLoop dst src k written chunks).events
        = chunks.flatten ++ src.last ∧
      bytesRead src.id (copyLoop dst src k written chunks).events
        = chunks.flatten ++ src.last := by
  induction chunks with
  | nil =>
    intro k written
    obtain ⟨_, _, _, hbr, _, hfull⟩ := copyWrite_obs dst k written src.last
    rw [copyLoop_nil_events]
    simp [bytesWritten, bytesRead, hbr, hfull (copyWrite_accepts dst h k written src.last)]
  | cons c rest ih =>
    intro k written
    obtain ⟨_, _, _, hbr, _, hfull⟩ := copyWrite_obs dst k written c
    have hb := copyWrite_accepts dst h k written c
    obtain ⟨iw, ir⟩ := ih (if 0 < c.length then k + 1 else k) (copyWrite dst k written c).2.1
    rw [copyLoop_cons_events_cont dst src k written c rest hb]
    simp [bytesWritten, bytesRead, bytesWritten_append, bytesRead_append, hbr, hfull hb, iw, ir]

theorem transfer_closes (dst src : Conn) : closes (transfer dst src) = [src.id, dst.id] := by
  unfold transfer ioCopy
  rw [closes_append, (copyLoop_obs dst src src.chunks 0 0).1]
  rfl

/-! ## Dispatcher -/

/-- Claim C1: `proxyHandler` invokes exactly one handler, `handleTunneling`
if and only if the method is exactly "CONNECT" and `handleHTTP` for every
other method (the empty one and "connect" included), and its effects are
exactly those of the handler it invokes. -/
theorem proxyHandler_dispatch (env : Env) (w : ResponseWriter) (r : Request) :
    (proxyHandlerWith (fun w1 r1 => [Call.handleTunneling w1 r1])
        (fun w1 r1 => [Call.handleHTTP w1 r1]) w r).length = 1 ∧
    (proxyHandlerWith (fun w1 r1 => [Call.handleTunneling w1 r1])
        (fun w1 r1 => [Call.handleHTTP w1 r1]) w r = [Call.handleTunneling w r]
      ↔ r.Method = "CONNECT") ∧
    (proxyHandlerWith (fun w1 r1 => [Call.handleTunneling w1 r1])
        (fun w1 r1 => [Call.handleHTTP w1 r1]) w r = [Call.handleHTTP w r]
      ↔ r.Method ≠ "CONNECT") ∧
    (proxyHandler env w r = handleTunneling env w r ↔ r.Method = "CONNECT") ∧
    (proxyHandler env w r = handleHTTP w r ↔ r.Method ≠ "CONNECT") ∧
    proxyHandler env w { r with Method := "" } = handleHTTP w { r with Method := "" } ∧
    proxyHandler env w { r with Method := "connect" }
      = handleHTTP w { r with Method := "connect" } := by
  have hne := handleTunneling_ne_handleHTTP env w r
  refine ⟨?_, ?_, ?_, ?_, ?_, ?_, ?_⟩
  · unfold proxyHandlerWith; split <;> rfl
  · unfold proxyHandlerWith MethodConnect
    by_cases h : r.Method = "CONNECT" <;> simp [h]
  · unfold proxyHandlerWith MethodConnect
    by_cases h : r.Method = "CONNECT" <;> simp [h]
  · unfold proxyHandler proxyHandlerWith MethodConnect
    by_cases h : r.Method = "CONNECT"
    · simp [h]
    · simp only [h, if_false, iff_false]
      exact fun e => hne e.symm
  · unfold proxyHandler proxyHandlerWith MethodConnect
    by_cases h : r.Method = "CONNECT"
    · simp only [h, if_true, ne_eq, not_true_eq_false, iff_false]
      exact hne
    · simp [h]
  · unfold proxyHandler proxyHandlerWith MethodConnect
    exact if_neg (show ¬ ("" : String) = "CONNECT" by decide)
  · unfold proxyHandler proxyHandlerWith MethodConnect
    exact if_neg (show ¬ ("connect" : String) = "CONNECT" by decide)

/-! ## Rewrite handler -/

/-- Claim C2: `handleHTTP` hands the request to a reverse proxy whose
director is the closure over `r`, and after that director has run on any
outgoing request `req`, `req.URL.Scheme` is "http" and `req.URL.Host` is
`r.Host`, whatever they were before; a non-CONNECT request reaches this
handler. -/
theorem handleHTTP_director_target (env : Env) (w : ResponseWriter) (r req : Request) :
    handleHTTP w r = [Event.serveHTTP { Director := handleHTTP.Director r } w r] ∧
    (handleHTTP.Director r req).URL.Scheme = "http" ∧
    (handleHTTP.Director r req).URL.Host = r.Host ∧
    (r.Method ≠ "CONNECT" →
      proxyHandler env w r = [Event.serveHTTP { Director := handleHTTP.Director r } w r]) := by
  refine ⟨rfl, rfl, rfl, ?_⟩
  intro h
  unfold proxyHandler proxyHandlerWith MethodConnect
  rw [if_neg h]
  rfl

/-- Claim C10: the director changes only the URL scheme and the URL host of
the outgoing request: every other field of the request and of its URL is
kept, and running the director twice gives the same as running it once. -/
theorem handleHTTP_director_frame (r req : Request) :
    (handleHTTP.Director r req).Method = req.Method ∧
    (handleHTTP.Director r req).Proto = req.Proto ∧
    (handleHTTP.Director r req).Header = req.Header ∧
    (handleHTTP.Director r req).Body = req.Body ∧
    (handleHTTP.Director r req).ContentLength = req.ContentLength ∧
    (handleHTTP.Director r req).Host = req.Host ∧
    (handleHTTP.Director r req).RequestURI = req.RequestURI ∧
    (handleHTTP.Director r req).RemoteAddr = req.RemoteAddr ∧
    (handleHTTP.Director r req).URL.Opaque = req.URL.Opaque ∧
    (handleHTTP.Director r req).URL.User = req.URL.User ∧
    (handleHTTP.Director r req).URL.Path = req.URL.Path ∧
    (handleHTTP.Director r req).URL.RawPath = req.URL.RawPath ∧
    (handleHTTP.Director r req).URL.OmitHost = req.URL.OmitHost ∧
    (handleHTTP.Director r req).URL.ForceQuery = req.URL.ForceQuery ∧
    (handleHTTP.Director r req).URL.RawQuery = req.URL.RawQuery ∧
    (handleHTTP.Director r req).URL.Fragment = req.URL.Fragment ∧
    (handleHTTP.Director r req).URL.RawFragment = req.URL.RawFragment ∧
    handleHTTP.Director r (handleHTTP.Director r req) = handleHTTP.Director r req := by
  refine ⟨rfl, rfl, rfl, rfl, rfl, rfl, rfl, rfl, rfl, rfl, rfl, rfl, rfl, rfl, rfl, rfl, rfl, rfl⟩

/-! ## Tunnel handler -/

/-- Claim C3: when the dial to `r.Host` fails, `handleTunneling` answers
with status 503 and the text of the dial error and stops there: it writes no
success status, does not call `Hijack`, launches no relay task, and nothing
is read from or written to any connection. -/
theorem handleTunneling_dial_failure (env : Env) (w : ResponseWriter) (r : Request)
    (err : String) (h : env.dial "tcp" r.Host = Except.error err) :
    effectiveStatus (handleTunneling env w r) = some StatusServiceUnavailable ∧
    statusWrites (handleTunneling env w r) = [StatusServiceUnavailable] ∧
    bodyWrites (handleTunneling env w r) = [err ++ "\n"] ∧
    StatusOK ∉ statusWrites (handleTunneling env w r) ∧
    hijackCalls (handleTunneling env w r) = 0 ∧
    goTasks (handleTunneling env w r) = [] ∧
    (handleTunneling env w r).getLast? = some (Event.write (err ++ "\n")) ∧
    tunnelRun env w r = handleTunneling env w r ∧
    readConns (tunnelRun env w r) = [] ∧
    writeConns (tunnelRun env w r) = [] := by
  rw [tunnelRun, handleTunneling_dial_error env w r err h]
  simp [httpError, effectiveStatus, statusWrites, bodyWrites, hijackCalls, goTasks,
    readConns, writeConns, StatusOK, StatusServiceUnavailable]

/-- Witness for C3: a refused dial to example.com:443, with a response
writer that would support the takeover. -/
theorem handleTunneling_dial_failure_witness :
    (envDialFails "connection refused").dial "tcp"
        (sampleRequest "CONNECT" "example.com:443").Host
      = Except.error "connection refused" ∧
    effectiveStatus (handleTunneling (envDialFails "connection refused")
        { hijacker := some (Except.ok (sampleConn 2 [])) }
        (sampleRequest "CONNECT" "example.com:443")) = some StatusServiceUnavailable ∧
    goTasks (handleTunneling (envDialFails "connection refused")
        { hijacker := some (Except.ok (sampleConn 2 [])) }
        (sampleRequest "CONNECT" "example.com:443")) = [] :=
  ⟨rfl,
   (handleTunneling_dial_failure (envDialFails "connection refused")
      { hijacker := some (Except.ok (sampleConn 2 [])) }
      (sampleRequest "CONNECT" "example.com:443") "connection refused" rfl).1,
   (handleTunneling_dial_failure (envDialFails "connection refused")
      { hijacker := some (Except.ok (sampleConn 2 [])) }
      (sampleRequest "CONNECT" "example.com:443") "connection refused" rfl).2.2.2.2.2.1⟩

/-- Claim C4, evaluated on the code: with a successful dial and a response
writer that is not an `http.Hijacker`, the first status written is 200 (the
`WriteHeader(StatusOK)` that precedes the type assertion), and the 500 of
`http.Error` comes second, so the effective status is 200 and not 500. -/
theorem handleTunneling_not_hijacker_status (r : Request) (d : Conn) :
    statusWrites (handleTunneling (envDialOk d) { hijacker := none } r)
      = [StatusOK, StatusInternalServerError] ∧
    effectiveStatus (handleTunneling (envDialOk d) { hijacker := none } r) = some StatusOK ∧
    effectiveStatus (handleTunneling (envDialOk d) { hijacker := none } r)
      ≠ some StatusInternalServerError := by
  rw [handleTunneling_not_hijacker (envDialOk d) { hijacker := none } r d rfl rfl]
  simp [httpError, effectiveStatus, statusWrites, StatusOK, StatusInternalServerError]

/-- Claim C5, evaluated on the code: after a successful dial, when the
response writer is not an `http.Hijacker` or `Hijack` returns an error, the
handler returns without closing the destination connection and without
launching a relay task, so `Close` is never called on it; only when the
tunnel is established do the two relay tasks close it. -/
theorem handleTunneling_leaks_destination (r : Request) (d : Conn) (err : String) :
    opened (tunnelRun (envDialOk d) { hijacker := none } r) = [d.id] ∧
    closes (tunnelRun (envDialOk d) { hijacker := none } r) = [] ∧
    goTasks (handleTunneling (envDialOk d) { hijacker := none } r) = [] ∧
    opened (tunnelRun (envDialOk d) { hijacker := some (Except.error err) } r) = [d.id] ∧
    closes (tunnelRun (envDialOk d) { hijacker := some (Except.error err) } r) = [] ∧
    goTasks (handleTunneling (envDialOk d) { hijacker := some (Except.error err) } r) = [] ∧
    (∀ c : Conn, closes (tunnelRun (envDialOk d) { hijacker := some (Except.ok c) } r)
      = [c.id, d.id, d.id, c.id]) := by
  refine ⟨?_, ?_, ?_, ?_, ?_, ?_, ?_⟩
  · rw [tunnelRun, handleTunneling_not_hijacker (envDialOk d) { hijacker := none } r d rfl rfl]
    simp [httpError, opened, goTasks]
  · rw [tunnelRun, handleTunneling_not_hijacker (envDialOk d) { hijacker := none } r d rfl rfl]
    simp [httpError, closes, goTasks]
  · rw [handleTunneling_not_hijacker (envDialOk d) { hijacker := none } r d rfl rfl]
    simp [httpError, goTasks]
  · rw [tunnelRun, handleTunneling_hijack_error (envDialOk d)
      { hijacker := some (Except.error err) } r d err rfl rfl]
    simp [httpError, opened, goTasks]
  · rw [tunnelRun, handleTunneling_hijack_error (envDialOk d)
      { hijacker := some (Except.error err) } r d err rfl rfl]
    simp [httpError, closes, goTasks]
  · rw [handleTunneling_hijack_error (envDialOk d)
      { hijacker := some (Except.error err) } r d err rfl rfl]
    simp [httpError, goTasks]
  · intro c
    rw [tunnelRun, handleTunneling_established (envDialOk d)
      { hijacker := some (Except.ok c) } r d c rfl rfl]
    simp [closes, goTasks, closes_append, transfer_closes]

/-- Claim C6: when the dial and the takeover both succeed, the effects of
`handleTunneling` contain exactly one status write, of status 200; it comes
before the `Hijack` call and before both relay tasks are launched, and no
operation on the response writer follows the `Hijack` call. -/
theorem handleTunneling_success_order (env : Env) (w : ResponseWriter) (r : Request)
    (d c : Conn) (h : env.dial "tcp" r.Host = Except.ok d)
    (hw : w.hijacker = some (Except.ok c)) :
    statusWrites (handleTunneling env w r) = [StatusOK] ∧
    effectiveStatus (handleTunneling env w r) = some StatusOK ∧
    hijackCalls (handleTunneling env w r) = 1 ∧
    ∃ pre post : List Event,
      handleTunneling env w r = pre ++ Event.hijack (Except.ok c) :: post ∧
      statusWrites pre = [StatusOK] ∧
      goTasks pre = [] ∧
      statusWrites post = [] ∧
      post.filter isWriterOp = [] ∧
      goTasks post = [(d, c), (c, d)] := by
  rw [handleTunneling_established env w r d c h hw]
  refine ⟨rfl, rfl, rfl, [Event.dial "tcp" r.Host (Except.ok d), Event.writeHeader StatusOK],
    [Event.go_transfer d c, Event.go_transfer c d], rfl, rfl, rfl, rfl, rfl, rfl⟩

/-- Witness for C6: a CONNECT to example.com:443 whose dial returns
connection 1 and whose takeover returns connection 2. -/
theorem handleTunneling_success_order_witness :
    statusWrites (handleTunneling (envDialOk (sampleConn 1 []))
        { hijacker := some (Except.ok (sampleConn 2 [])) }
        (sampleRequest "CONNECT" "example.com:443")) = [StatusOK] :=
  (handleTunneling_success_order (envDialOk (sampleConn 1 []))
      { hijacker := some (Except.ok (sampleConn 2 [])) }
      (sampleRequest "CONNECT" "example.com:443") (sampleConn 1 []) (sampleConn 2 [])
      rfl rfl).1

/-- Claim C9: `handleTunneling` launches no relay task or exactly two, never
one; it launches two exactly when the dial succeeds and the takeover
returns a connection, and then the first is `transfer(destConn, clientConn)`
and the second `transfer(clientConn, destConn)`; a task `transfer(dst, src)`
reads only from `src` and writes only to `dst`, so the two copy in opposite
directions over the same two connections. -/
theorem handleTunneling_relay_tasks (env : Env) (w : ResponseWriter) (r : Request) :
    (goTasks (handleTunneling env w r) = [] ∨
      ∃ d c : Conn, goTasks (handleTunneling env w r) = [(d, c), (c, d)]) ∧
    (goTasks (handleTunneling env w r)).length ≠ 1 ∧
    ((goTasks (handleTunneling env w r)).length = 2 ↔
      ∃ d c : Conn, env.dial "tcp" r.Host = Except.ok d ∧
        w.hijacker = some (Except.ok c)) ∧
    (∀ d c : Conn, env.dial "tcp" r.Host = Except.ok d → w.hijacker = some (Except.ok c) →
      goTasks (handleTunneling env w r) = [(d, c), (c, d)]) ∧
    (∀ dst src : Conn,
      (∀ x ∈ readConns (transfer dst src), x = src.id) ∧
      (∀ x ∈ writeConns (transfer dst src), x = dst.id)) := by
  have hdir : ∀ dst src : Conn,
      (∀ x ∈ readConns (transfer dst src), x = src.id) ∧
      (∀ x ∈ writeConns (transfer dst src), x = dst.id) := by
    intro dst src
    obtain ⟨_, hr, hwr, _, _⟩ := copyLoop_obs dst src src.chunks 0 0
    unfold transfer ioCopy
    constructor
    · intro x hx
      simp only [readConns_append, readConns, List.append_nil] at hx
      exact hr x hx
    · intro x hx
      simp only [writeConns_append, writeConns, List.append_nil] at hx
      exact hwr x hx
  refine ⟨?_, ?_, ?_, ?_, hdir⟩
  all_goals
    cases hd : env.dial "tcp" r.Host with
    | error err =>
      rw [handleTunneling_dial_error env w r err hd]
      simp [httpError, goTasks]
    | ok d =>
      cases hh : w.hijacker with
      | none =>
        rw [handleTunneling_not_hijacker env w r d hd hh]
        simp [httpError, goTasks]
      | some res =>
        cases res with
        | error err =>
          rw [handleTunneling_hijack_error env w r d err hd hh]
          simp [httpError, goTasks]
        | ok c =>
          rw [handleTunneling_established env w r d c hd hh]
          first
            | exact Or.inr ⟨d, c, rfl⟩
            | simp [goTasks]

/-! ## Relay task -/

/-- Claim C7: when the destination accepts every write, the bytes `transfer`
writes to it are exactly the bytes it read from the source, which are all
the chunks of the source concatenated in order; whatever the writes return,
the bytes written are an initial segment of the bytes read, themselves an
initial segment of the source stream. -/
theorem transfer_relays_in_order (destination source : Conn) :
    (AcceptsEveryWrite destination →
      bytesWritten destination.id (transfer destination source)
        = bytesRead source.id (transfer destination source) ∧
      bytesWritten destination.id (transfer destination source)
        = source.chunks.flatten ++ source.last) ∧
    bytesWritten destination.id (transfer destination source)
      <+: bytesRead source.id (transfer destination source) ∧
    bytesRead source.id (transfer destination source)
      <+: source.chunks.flatten ++ source.last := by
  obtain ⟨_, _, _, hpre, hsrc⟩ := copyLoop_obs destination source source.chunks 0 0
  have hw : bytesWritten destination.id (transfer destination source)
      = bytesWritten destination.id (copyLoop destination source 0 0 source.chunks).events := by
    simp [transfer, ioCopy, bytesWritten_append, bytesWritten]
  have hr : bytesRead source.id (transfer destination source)
      = bytesRead source.id (copyLoop destination source 0 0 source.chunks).events := by
    simp [transfer, ioCopy, bytesRead_append, bytesRead]
  rw [hw, hr]
  refine ⟨fun hacc => ?_, hpre, hsrc⟩
  obtain ⟨h1, h2⟩ := copyLoop_accepts destination source hacc source.chunks 0 0
  exact ⟨h1.trans h2.symm, h1⟩

/-- Witness for C7: the chunks "pi" and "ng" relayed from connection 2 to
connection 1, which accepts every write, arrive as "ping". -/
theorem transfer_relays_in_order_witness :
    bytesWritten 1 (transfer (sampleConn 1 []) (sampleConn 2 [[112, 105], [110, 103]]))
      = [112, 105, 110, 103] :=
  ((transfer_relays_in_order (sampleConn 1 [])
      (sampleConn 2 [[112, 105], [110, 103]])).1 (fun _ _ => rfl)).2

/-- Claim C8: `transfer` calls `Close` once on the source and then once on
the destination, after the copy has ended and whatever ended it: its effects
are those of the copy, which contain no `Close` and all the reads and
writes, followed by the two closes, source first, whatever the copy and the
closes return. -/
theorem transfer_closes_both (destination source : Conn) :
    transfer destination source = (ioCopy destination source).events ++
      [Event.connClose source.id source.closeErr,
       Event.connClose destination.id destination.closeErr] ∧
    closes (ioCopy destination source).events = [] ∧
    closes (transfer destination source) = [source.id, destination.id] ∧
    readConns (transfer destination source) = readConns (ioCopy destination source).events ∧
    writeConns (transfer destination source) = writeConns (ioCopy destination source).events ∧
    (source.id ≠ destination.id →
      (closes (transfer destination source)).count source.id = 1 ∧
      (closes (transfer destination source)).count destination.id = 1) := by
  refine ⟨rfl, (copyLoop_obs destination source source.chunks 0 0).1,
    transfer_closes destination source, ?_, ?_, ?_⟩
  · simp [transfer, readConns_append, readConns]
  · simp [transfer, writeConns_append, writeConns]
  · intro hne
    rw [transfer_closes]
    simp [List.count_cons, hne, Ne.symm hne]

end HttpProxy
